import Mathlib

/-!
Verification development for the hikakin-tts Discord bot (`main.py`).
The Python source is shallowly embedded: pure helpers become Lean
functions on `List Char` / `String`, the per-guild session state and the
registry become explicit state passing over a `BotState` record, and the
asynchronous player loop becomes a step function driven by a list of
per-iteration environments (connection liveness, synthesis outcome,
cancellation point).
-/

namespace HikakinTTS

/-! ## Python-faithful character and string helpers -/

/-- The set of characters Python's `str.strip()` and the regex class
`\s` (Unicode mode, the default for `str` patterns) treat as whitespace. -/
def pyIsSpaceChar (c : Char) : Bool :=
  let n := c.toNat
  n == 0x20 || n == 0x09 || n == 0x0a || n == 0x0d || n == 0x0b || n == 0x0c ||
  n == 0x1c || n == 0x1d || n == 0x1e || n == 0x1f || n == 0x85 || n == 0xa0 ||
  n == 0x1680 || (decide (0x2000 ≤ n) && decide (n ≤ 0x200a)) ||
  n == 0x2028 || n == 0x2029 || n == 0x202f || n == 0x205f || n == 0x3000

/-- Python `str.strip()`: drop whitespace from both ends. -/
def pyStrip (l : List Char) : List Char :=
  ((l.dropWhile pyIsSpaceChar).reverse.dropWhile pyIsSpaceChar).reverse

/-- Scanning loop of Python `str.replace` for a non-empty pattern
`wh :: wt`: leftmost, non-overlapping occurrences, each replaced by `r`.
The `Nat` argument is structural-recursion fuel; every step consumes at
least one character, so fuel equal to the list length is never
exhausted. -/
def replGo (wh : Char) (wt r : List Char) : Nat → List Char → List Char
  | _, [] => []
  | 0, l => l
  | fuel + 1, c :: rest =>
    if (wh :: wt).isPrefixOf (c :: rest) then
      r ++ replGo wh wt r fuel (List.drop wt.length rest)
    else
      c :: replGo wh wt r fuel rest

/-- Python `str.replace w r` on the char list `s`.  An empty pattern
inserts `r` before every character and once at the end, exactly as
CPython does. -/
def pyReplace (w r s : List Char) : List Char :=
  match w with
  | [] => r ++ (s.map (fun c => c :: r)).flatten
  | wh :: wt => replGo wh wt r s.length s

/-- Index of the first closing angle bracket, provided no newline comes
first: the lazy group in the pattern matching angle-bracketed tokens
cannot cross a newline and stops at the first closer. -/
def findGt : List Char → Option Nat
  | [] => none
  | c :: rest =>
    if c = '>' then some 0
    else if c = '\n' then none
    else (findGt rest).map (fun k => k + 1)

/-- Fueled scanner for the angle-token strip; fuel equal to the list
length is never exhausted. -/
def stripAngleGo : Nat → List Char → List Char
  | _, [] => []
  | 0, l => l
  | fuel + 1, c :: rest =>
    if c = '<' then
      match findGt rest with
      | some k => stripAngleGo fuel (List.drop (k + 1) rest)
      | none => c :: stripAngleGo fuel rest
    else
      c :: stripAngleGo fuel rest

/-- `re.sub` deleting every `<` ... first following `>` token (the
mention / custom-emoji markup strip in `process_text_for_speech`). -/
def stripAngle (l : List Char) : List Char := stripAngleGo l.length l

/-- Fueled scanner replacing every `http://` / `https://` scheme
followed by a non-empty run of non-whitespace characters with the
literal `URL`; fuel equal to the list length is never exhausted. -/
def replaceUrlsGo : Nat → List Char → List Char
  | _, [] => []
  | 0, l => l
  | fuel + 1, c :: rest =>
    if ("https://".toList).isPrefixOf (c :: rest) then
      let after := List.drop 7 rest
      if (after.takeWhile (fun ch => !pyIsSpaceChar ch)).isEmpty then
        c :: replaceUrlsGo fuel rest
      else
        'U' :: 'R' :: 'L' :: replaceUrlsGo fuel (after.dropWhile (fun ch => !pyIsSpaceChar ch))
    else if ("http://".toList).isPrefixOf (c :: rest) then
      let after := List.drop 6 rest
      if (after.takeWhile (fun ch => !pyIsSpaceChar ch)).isEmpty then
        c :: replaceUrlsGo fuel rest
      else
        'U' :: 'R' :: 'L' :: replaceUrlsGo fuel (after.dropWhile (fun ch => !pyIsSpaceChar ch))
    else
      c :: replaceUrlsGo fuel rest

/-- `re.sub` for the URL placeholder step of `process_text_for_speech`. -/
def replaceUrls (l : List Char) : List Char := replaceUrlsGo l.length l

/-- The literal suffix appended when the message carries attachments
(a space followed by the Japanese word for "attached file"). -/
def attachmentSuffix : List Char := (" 添付ファイル").toList

/-- The attachment marker without its leading space; the normalizer's
output ends in this string whenever attachments are present. -/
def attachmentMarker : List Char := ("添付ファイル").toList

/-- The processing pipeline of `process_text_for_speech` up to and
including the final `strip()`: dictionary substitution in registration
order, then angle-token removal, then URL replacement, then the
attachment suffix, then strip. -/
def processedText (cleanContent : String)
    (dictionary : List (String × String)) (hasAttachments : Bool) : List Char :=
  let t0 := dictionary.foldl (fun s p => pyReplace p.1.toList p.2.toList s) cleanContent.toList
  let t1 := stripAngle t0
  let t2 := replaceUrls t1
  let t3 := if hasAttachments then t2 ++ attachmentSuffix else t2
  pyStrip t3

/-- `process_text_for_speech`: the pipeline above, returning `none`
when the stripped result is empty (the Python
`text_to_read.strip() or None`). -/
def process_text_for_speech (cleanContent : String)
    (dictionary : List (String × String)) (hasAttachments : Bool) : Option String :=
  let t4 := processedText cleanContent dictionary hasAttachments
  if t4.isEmpty then none else some (String.mk t4)

/-! ## Speech synthesizer client (`GuildSession._generate_tts_bytes`) -/

/-- Parsed JSON body of a 200 response from the TTS endpoint:
`success` flag and the optional base64 `data` field (`json_data.get`
and the `json_data["data"]` subscript). -/
structure TtsResponse where
  success : Bool
  data : Option String
deriving DecidableEq, Repr

/-- Outcome of the HTTP POST to the TTS endpoint, as the code can
observe it: a 200 with a parsed body, a non-200 status, a
transport-level error, or the 20-unit client timeout (both of the last
two surface as exceptions and are caught by the blanket handler). -/
inductive HttpOutcome where
  | success (body : TtsResponse)
  | httpError (status : Nat)
  | transportError
  | timeout
deriving DecidableEq, Repr

/-- `_generate_tts_bytes`: returns the decoded audio only on a 200
response whose body has a true success flag and a present, decodable
`data` payload; every other path (failure flag, bad status, exception,
timeout, missing field, undecodable base64) falls through to `None`.
`b64decode` stands for `base64.b64decode`, whose failure raises and is
caught by the handler, hence the `Option` result. -/
def generate_tts_bytes (b64decode : String → Option (List Nat)) :
    HttpOutcome → Option (List Nat)
  | HttpOutcome.success resp =>
    if resp.success then
      match resp.data with
      | some payload => b64decode payload
      | none => none
    else none
  | HttpOutcome.httpError _ => none
  | HttpOutcome.transportError => none
  | HttpOutcome.timeout => none

/-! ## Player loop (`GuildSession._audio_player_task`)

The loop runs on a cooperative scheduler; each iteration observes the
world at its suspension points.  One `IterEnv` records those
observations for one iteration: the `while` guard's two flags, voice
connection liveness at the dequeue instant, the synthesis outcome, an
unhandled exception during playback, and whether task cancellation is
delivered during the queue wait or at a later await of the iteration. -/

inductive CancelPoint where
  | noCancel
  | duringGet
  | afterGet
deriving DecidableEq, Repr

structure IterEnv where
  closed : Bool
  stopSet : Bool
  connected : Bool
  synth : Option (List Nat)
  raiseUnhandled : Bool
  cancel : CancelPoint
deriving DecidableEq, Repr

/-- What one loop iteration did with the item it dequeued (or how the
loop ended instead). -/
inductive IterResult where
  | skippedNoVC (t : String)
  | synthFailed (t : String)
  | errored (t : String) (cooldown : Nat)
  | played (t : String) (audio : List Nat)
  | cancelledDuringWait
  | cancelledMid (t : String)
  | loopExit
deriving DecidableEq, Repr

/-- Body of one iteration after the `while` guard passed, dequeuing
item `t`: cancellation at the queue wait breaks out; an absent or dead
voice client discards the item (`continue`); cancellation at a later
await breaks out; failed synthesis discards the item (`continue`); an
unhandled playback exception logs and sleeps 5 (`except Exception`);
otherwise the audio is played to completion. -/
def playerStep (e : IterEnv) (t : String) : IterResult :=
  if e.cancel = CancelPoint.duringGet then IterResult.cancelledDuringWait
  else if !e.connected then IterResult.skippedNoVC t
  else if e.cancel = CancelPoint.afterGet then IterResult.cancelledMid t
  else
    match e.synth with
    | none => IterResult.synthFailed t
    | some audio =>
      if e.raiseUnhandled then IterResult.errored t 5
      else IterResult.played t audio

/-- Results that end the loop: `break` on `CancelledError` and the
`while` guard turning false. -/
def resultStops : IterResult → Bool
  | IterResult.cancelledDuringWait => true
  | IterResult.cancelledMid _ => true
  | IterResult.loopExit => true
  | _ => false

/-- Trace of the player loop run against a queue snapshot: one
environment is consumed per iteration; the loop ends when the guard
fails, on cancellation, or (as far as the trace goes) when the queue
snapshot is exhausted and the loop blocks waiting. -/
def playerRun : List IterEnv → List String → List IterResult
  | _, [] => []
  | [], _ :: _ => []
  | e :: es, t :: ts =>
    if e.closed || e.stopSet then [IterResult.loopExit]
    else
      if resultStops (playerStep e t) then [playerStep e t]
      else playerStep e t :: playerRun es ts

/-- The texts the loop dequeued and handled, in trace order. -/
def attemptedTexts : List IterResult → List String
  | [] => []
  | r :: rs =>
    (match r with
     | IterResult.skippedNoVC t => [t]
     | IterResult.synthFailed t => [t]
     | IterResult.errored t _ => [t]
     | IterResult.played t _ => [t]
     | IterResult.cancelledMid t => [t]
     | _ => []) ++ attemptedTexts rs

/-- An environment under which the loop keeps running: guard true and
no cancellation delivered this iteration. -/
def envLive (e : IterEnv) : Prop :=
  e.closed = false ∧ e.stopSet = false ∧ e.cancel = CancelPoint.noCancel

instance (e : IterEnv) : Decidable (envLive e) := by
  unfold envLive
  infer_instance


/-! ## Sessions, registry and event handlers

`BotState` bundles the process-wide mutable state of `HikakinBot`:
the `guild_sessions` dict (an association list keyed by guild id), the
per-guild dictionaries, and a global table of every player task ever
created together with its cancellation flag (`Task.cancel` is a
request; a task is *live* while no cancellation has been requested). -/

structure VoiceClientState where
  connected : Bool
  channelId : Nat
  playing : Bool
deriving DecidableEq, Repr

structure PlayerTask where
  id : Nat
  guildId : Nat
  cancelled : Bool
deriving DecidableEq, Repr

structure GuildSession where
  guildId : Nat
  voiceClient : Option VoiceClientState
  textChannelId : Option Nat
  queue : List String
  isMuted : Bool
  playerTaskId : Option Nat
  stopEventSet : Bool
deriving DecidableEq, Repr

structure BotState where
  sessions : List (Nat × GuildSession)
  dicts : List (Nat × List (String × String))
  tasks : List PlayerTask
  nextTaskId : Nat
deriving DecidableEq, Repr

/-- Lookup in the registry association list. -/
def findSession (l : List (Nat × GuildSession)) (g : Nat) : Option GuildSession :=
  (l.find? (fun p => p.1 == g)).map (fun p => p.2)

/-- `self.bot.guild_sessions.get(guild_id)`. -/
def getSession (st : BotState) (g : Nat) : Option GuildSession :=
  findSession st.sessions g

/-- In-place mutation of the session object stored under key `g`. -/
def updateSession (st : BotState) (g : Nat) (s : GuildSession) : BotState :=
  { st with sessions := st.sessions.map (fun p => if p.1 == g then (p.1, s) else p) }

/-- `del self.bot.guild_sessions[guild_id]`. -/
def removeSession (st : BotState) (g : Nat) : BotState :=
  { st with sessions := st.sessions.filter (fun p => !(p.1 == g)) }

/-- `task.cancel()`: request cancellation of the task with this id. -/
def cancelTask (tasks : List PlayerTask) (tid : Nat) : List PlayerTask :=
  tasks.map (fun t => if t.id == tid then { t with cancelled := true } else t)

/-- `GuildSession.start`: bind the voice client and text channel,
cancel the session's previous player task if any, create a fresh
player task owned by this session. -/
def sessionStart (st : BotState) (s : GuildSession) (vc : VoiceClientState)
    (textChan : Nat) : BotState × GuildSession :=
  let tasks1 :=
    match s.playerTaskId with
    | some tid => cancelTask st.tasks tid
    | none => st.tasks
  let newId := st.nextTaskId
  let tasks2 := tasks1 ++ [{ id := newId, guildId := s.guildId, cancelled := false }]
  let s1 := { s with voiceClient := some vc, textChannelId := some textChan,
                     playerTaskId := some newId }
  ({ st with tasks := tasks2, nextTaskId := newId + 1 }, s1)

/-- `GuildSession.stop`: set the stop event, cancel the player task if
present, disconnect and drop the voice client. -/
def sessionStop (st : BotState) (s : GuildSession) : BotState × GuildSession :=
  let tasks1 :=
    match s.playerTaskId with
    | some tid => cancelTask st.tasks tid
    | none => st.tasks
  let s1 := { s with stopEventSet := true, voiceClient := none }
  ({ st with tasks := tasks1 }, s1)

inductive JoinResult where
  | userNotInVoice
  | connectFailed
  | joined
deriving DecidableEq, Repr

/-- First phase of `VoiceCog.join`: if a session exists for the guild,
stop it and delete it from the registry. -/
def stopRemove (st : BotState) (g : Nat) : BotState :=
  match getSession st g with
  | some old => removeSession (sessionStop st old).1 g
  | none => st

/-- The fresh `GuildSession(...)` object built by `join` before
`start` runs: empty queue, unmuted, no player yet. -/
def freshSession (g : Nat) : GuildSession :=
  { guildId := g, voiceClient := none, textChannelId := none, queue := [],
    isMuted := false, playerTaskId := none, stopEventSet := false }

/-- Second phase of `VoiceCog.join`: create the fresh session, run its
`start` (which creates the player task) and install it in the
registry. -/
def installFresh (st1 : BotState) (g : Nat) (vc : VoiceClientState)
    (textChan : Nat) : BotState :=
  { (sessionStart st1 (freshSession g) vc textChan).1 with
      sessions := (g, (sessionStart st1 (freshSession g) vc textChan).2) ::
        (sessionStart st1 (freshSession g) vc textChan).1.sessions.filter
          (fun p => !(p.1 == g)) }

/-- `VoiceCog.join`: reject when the caller is in no voice channel;
otherwise stop and delete any existing session for the guild, connect
(`connectOk = false` models the exception path, caught after the old
session is already gone), then create a fresh session — empty queue,
unmuted — start it and install it in the registry. -/
def join (st : BotState) (g : Nat) (userVoiceChannel : Option Nat)
    (textChan : Nat) (connectOk : Bool) : BotState × JoinResult :=
  match userVoiceChannel with
  | none => (st, JoinResult.userNotInVoice)
  | some vchan =>
    if !connectOk then (stopRemove st g, JoinResult.connectFailed)
    else
      (installFresh (stopRemove st g) g
        { connected := true, channelId := vchan, playing := false } textChan,
       JoinResult.joined)

inductive LeaveResult where
  | notConnected
  | left
deriving DecidableEq, Repr

/-- `VoiceCog.leave`: error when no session exists, otherwise stop the
session and remove it from the registry. -/
def leave (st : BotState) (g : Nat) : BotState × LeaveResult :=
  match getSession st g with
  | none => (st, LeaveResult.notConnected)
  | some s => (removeSession (sessionStop st s).1 g, LeaveResult.left)

/-! ## Message and voice-state event handlers -/

structure MessageEvent where
  authorBot : Bool
  guildId : Option Nat
  channelId : Nat
  content : String
  cleanContent : String
  hasAttachments : Bool
deriving DecidableEq, Repr

inductive MsgAction where
  | ignored
  | reactSkip
  | reactError
  | enqueued (t : String)
deriving DecidableEq, Repr

/-- Python `str.lower` restricted to ASCII case folding, which is all
the handler compares against (the literal `"s"`). -/
def pyLower (s : String) : String :=
  String.mk (s.toList.map Char.toLower)

/-- The `can_skip` test of the skip branch of `on_message`: a present
and playing voice client, or a non-empty queue. -/
def canSkipCheck (s : GuildSession) : Bool :=
  (match s.voiceClient with
   | some vc => vc.playing
   | none => false) || !s.queue.isEmpty

/-- Effect of the skip branch on the session: drain the queue; if the
voice client is playing, stop it. -/
def skipSession (s : GuildSession) : GuildSession :=
  match s.voiceClient with
  | some vc =>
    if vc.playing then
      { s with queue := [], voiceClient := some { vc with playing := false } }
    else { s with queue := [] }
  | none => { s with queue := [] }

/-- `HikakinBot.on_message`: ignore bots, messages outside guilds,
guilds without a session, messages off the bound channel, and any
message while muted; handle the skip trigger `s`; otherwise normalize
and enqueue. -/
def on_message (st : BotState) (m : MessageEvent) : BotState × MsgAction :=
  if m.authorBot then (st, MsgAction.ignored)
  else
    match m.guildId with
    | none => (st, MsgAction.ignored)
    | some g =>
      match getSession st g with
      | none => (st, MsgAction.ignored)
      | some s =>
        if s.textChannelId ≠ some m.channelId then (st, MsgAction.ignored)
        else if s.isMuted then (st, MsgAction.ignored)
        else if pyLower m.content = "s" then
          if canSkipCheck s then
            (updateSession st g (skipSession s), MsgAction.reactSkip)
          else (st, MsgAction.reactError)
        else
          let dict := ((st.dicts.find? (fun p => p.1 == g)).map (fun p => p.2)).getD []
          match process_text_for_speech m.cleanContent dict m.hasAttachments with
          | some t =>
            (updateSession st g { s with queue := s.queue ++ [t] }, MsgAction.enqueued t)
          | none => (st, MsgAction.ignored)

structure VoiceEvent where
  memberBot : Bool
  guildId : Nat
  displayName : String
  beforeChannel : Option Nat
  afterChannel : Option Nat
deriving DecidableEq, Repr

/-- The join announcement (`…さんが参加しました`). -/
def joinAnnouncement (name : String) : String := name ++ "さんが参加しました"

/-- The leave announcement (`…さんが退出しました`). -/
def leaveAnnouncement (name : String) : String := name ++ "さんが退出しました"

/-- `HikakinBot.on_voice_state_update`: for a non-bot member of a guild
whose session exists and holds a voice client, enqueue a join or leave
announcement when the member enters or leaves the session's channel.
The mute flag is never consulted here. -/
def on_voice_state_update (st : BotState) (ev : VoiceEvent) : BotState :=
  if ev.memberBot then st
  else
    match getSession st ev.guildId with
    | none => st
    | some s =>
      match s.voiceClient with
      | none => st
      | some vc =>
        let text : Option String :=
          if ev.beforeChannel ≠ some vc.channelId ∧ ev.afterChannel = some vc.channelId then
            some (joinAnnouncement ev.displayName)
          else if ev.beforeChannel = some vc.channelId ∧ ev.afterChannel ≠ some vc.channelId then
            some (leaveAnnouncement ev.displayName)
          else none
        match text with
        | none => st
        | some t => updateSession st ev.guildId { s with queue := s.queue ++ [t] }

/-- State of a freshly launched process: no sessions, no tasks. -/
def startState : BotState :=
  { sessions := [], dicts := [], tasks := [], nextTaskId := 0 }

/-! ## Registry invariant -/

/-- Tasks of guild `g` in a task table whose cancellation has not been
requested. -/
def liveFilter (ts : List PlayerTask) (g : Nat) : List PlayerTask :=
  ts.filter (fun t => (t.guildId == g) && !t.cancelled)

/-- Player tasks of guild `g` whose cancellation has not been
requested. -/
def liveTasksFor (st : BotState) (g : Nat) : List PlayerTask :=
  liveFilter st.tasks g

/-- Process invariant: registry keys are distinct (one session per
guild), task ids are fresh and distinct, every live task is the one its
guild's session points to, and guilds without a session have no live
task.  Together these give at most one live player task per guild. -/
def Inv (st : BotState) : Prop :=
  (st.sessions.map (fun p => p.1)).Nodup ∧
  (st.tasks.map (fun t => t.id)).Nodup ∧
  (∀ t ∈ st.tasks, t.id < st.nextTaskId) ∧
  (∀ g s, getSession st g = some s → ∀ t ∈ liveTasksFor st g, some t.id = s.playerTaskId) ∧
  (∀ g, getSession st g = none → liveTasksFor st g = []) ∧
  (∀ g s, getSession st g = some s → ∀ tid, s.playerTaskId = some tid →
    tid < st.nextTaskId)


/-! ## Helper lemmas for the normalizer -/

theorem dropWhile_append_keeps (p : Char → Bool) (l : List Char) (h : Char)
    (t : List Char) (hh : p h = false) :
    ∃ l2, (l ++ h :: t).dropWhile p = l2 ++ h :: t := by
  induction l with
  | nil => exact ⟨[], by simp [List.dropWhile_cons, hh]⟩
  | cons c cs ih =>
    by_cases hc : p c = true
    · simpa [List.dropWhile_cons, hc] using ih
    · exact ⟨c :: cs, by simp [List.dropWhile_cons, hc]⟩

theorem attachmentSuffix_eq : attachmentSuffix = ' ' :: attachmentMarker := by decide

theorem attachmentMarker_ne_nil : attachmentMarker ≠ [] := by decide

/-- Stripping a string that ends in the attachment suffix leaves the
attachment marker as a suffix: the marker starts and ends in
non-whitespace characters. -/
theorem pyStrip_append_suffix (l : List Char) :
    ∃ l2, pyStrip (l ++ attachmentSuffix) = l2 ++ attachmentMarker := by
  have hmark : attachmentMarker = '添' :: "付ファイル".toList := by decide
  have hsufx : l ++ attachmentSuffix = (l ++ [' ']) ++ attachmentMarker := by
    rw [attachmentSuffix_eq]
    simp
  obtain ⟨l2, hl2⟩ :=
    dropWhile_append_keeps pyIsSpaceChar (l ++ [' ']) '添' ("付ファイル".toList) (by decide)
  refine ⟨l2, ?_⟩
  unfold pyStrip
  rw [hsufx, hmark, hl2]
  have hrev : (l2 ++ '添' :: "付ファイル".toList).reverse =
      'ル' :: ("イァフ付添".toList ++ l2.reverse) := by
    rw [List.reverse_append]
    have h2 : ('添' :: "付ファイル".toList).reverse = 'ル' :: "イァフ付添".toList := by decide
    rw [h2]
    simp
  rw [hrev, List.dropWhile_cons]
  have hru : pyIsSpaceChar 'ル' = false := by decide
  rw [hru]
  simp only [Bool.false_eq_true, if_false]
  have hback : ('ル' :: ("イァフ付添".toList ++ l2.reverse)).reverse =
      l2 ++ ('添' :: "付ファイル".toList) := by
    have h3 : ('ル' :: ("イァフ付添".toList ++ l2.reverse)) =
        ('ル' :: "イァフ付添".toList) ++ l2.reverse := by simp
    rw [h3, List.reverse_append, List.reverse_reverse]
    have h4 : ('ル' :: "イァフ付添".toList).reverse = '添' :: "付ファイル".toList := by decide
    rw [h4]
  rw [hback]

/-! ## Claim theorems: normalizer and synthesizer -/

/-- C7: on the message text `hi <@123> visit https://example.com/x`
with dictionary `{"hi": "hello"}` and no attachments, the normalizer
returns `hello  visit URL`: dictionary substitution first, then the
angle-token strip, then URL replacement, then the trim. -/
theorem c7_normalizer_example :
    process_text_for_speech "hi <@123> visit https://example.com/x" [("hi", "hello")] false =
      some "hello  visit URL" := by decide

/-- C8: the normalizer returns `none` exactly when the processed text
is empty after trimming, and any message carrying attachments — in
particular one with empty text — normalizes to a non-empty string
ending in the attachment marker, never to `none`. -/
theorem c8_none_iff_empty (content : String) (dict : List (String × String))
    (hasAtt : Bool) :
    (process_text_for_speech content dict hasAtt = none ↔
      processedText content dict hasAtt = []) ∧
    (hasAtt = true →
      ∃ s, process_text_for_speech content dict hasAtt = some s ∧ s ≠ "" ∧
        ∃ l2, s.toList = l2 ++ attachmentMarker) := by
  constructor
  · unfold process_text_for_speech
    by_cases h : (processedText content dict hasAtt).isEmpty = true
    · simp only [h, if_true]
      simp only [List.isEmpty_iff] at h
      simp [h]
    · simp only [h, if_false]
      simp only [List.isEmpty_iff] at h
      simp [h]
  · intro hA
    obtain ⟨l2, hl2⟩ := pyStrip_append_suffix
      (replaceUrls (stripAngle
        (dict.foldl (fun s p => pyReplace p.1.toList p.2.toList s) content.toList)))
    have hpt : processedText content dict hasAtt = l2 ++ attachmentMarker := by
      unfold processedText
      rw [hA]
      simpa using hl2
    have hne : processedText content dict hasAtt ≠ [] := by
      rw [hpt]
      intro hcon
      exact attachmentMarker_ne_nil (List.append_eq_nil.mp hcon).2
    refine ⟨String.mk (processedText content dict hasAtt), ?_, ?_, l2, ?_⟩
    · unfold process_text_for_speech
      have hf : (processedText content dict hasAtt).isEmpty = false := by
        cases hq : processedText content dict hasAtt with
        | nil => exact absurd hq hne
        | cons x xs => simp
      simp [hf]
    · intro hcon
      have hdata : (String.mk (processedText content dict hasAtt)).toList = String.toList "" :=
        congrArg String.toList hcon
      simp only [String.toList] at hdata
      exact hne (by simpa using hdata)
    · simpa using hpt

/-- C4: the synthesizer client returns no audio on a success response
with a false flag, on a non-success status, on a transport error and on
timeout; on a success response with a true flag and a decodable payload
it returns the decoded bytes. -/
theorem c4_tts_client (dec : String → Option (List Nat)) :
    (∀ resp, resp.success = false →
      generate_tts_bytes dec (HttpOutcome.success resp) = none) ∧
    (∀ status, generate_tts_bytes dec (HttpOutcome.httpError status) = none) ∧
    (generate_tts_bytes dec HttpOutcome.transportError = none) ∧
    (generate_tts_bytes dec HttpOutcome.timeout = none) ∧
    (∀ resp payload audio, resp.success = true → resp.data = some payload →
      dec payload = some audio →
      generate_tts_bytes dec (HttpOutcome.success resp) = some audio) := by
  refine ⟨?_, ?_, rfl, rfl, ?_⟩
  · intro resp h
    simp [generate_tts_bytes, h]
  · intro status
    rfl
  · intro resp payload audio hs hd hdec
    simp [generate_tts_bytes, hs, hd, hdec]

/-- Witness for C8 at the attachment-only message: empty text, empty
dictionary, attachments present. -/
theorem c8_none_iff_empty_witness :
    ∃ s, process_text_for_speech "" [] true = some s ∧ s ≠ "" ∧
      ∃ l2, s.toList = l2 ++ attachmentMarker :=
  (c8_none_iff_empty "" [] true).2 rfl

/-- Witness for C4 at a concrete decoder and concrete responses. -/
theorem c4_tts_client_witness :
    generate_tts_bytes (fun _ => some [7]) (HttpOutcome.success ⟨false, some "x"⟩) = none ∧
    generate_tts_bytes (fun _ => some [7]) (HttpOutcome.httpError 500) = none ∧
    generate_tts_bytes (fun _ => some [7]) HttpOutcome.transportError = none ∧
    generate_tts_bytes (fun _ => some [7]) HttpOutcome.timeout = none ∧
    generate_tts_bytes (fun _ => some [7]) (HttpOutcome.success ⟨true, some "x"⟩) = some [7] := by
  obtain ⟨h1, h2, h3, h4, h5⟩ := c4_tts_client (fun _ => some [7])
  exact ⟨h1 ⟨false, some "x"⟩ rfl, h2 500, h3, h4, h5 ⟨true, some "x"⟩ "x" [7] rfl rfl rfl⟩

/-! ## Helper lemmas for the player loop -/

theorem playerStep_not_stopping (e : IterEnv) (t : String)
    (h : e.cancel = CancelPoint.noCancel) : resultStops (playerStep e t) = false := by
  unfold playerStep
  rw [h]
  cases hc : e.connected <;> cases hs : e.synth <;> cases hr : e.raiseUnhandled <;>
    simp [resultStops, hr]

theorem playerStep_attempts (e : IterEnv) (t : String)
    (h : e.cancel = CancelPoint.noCancel) :
    (match playerStep e t with
     | IterResult.skippedNoVC t2 => [t2]
     | IterResult.synthFailed t2 => [t2]
     | IterResult.errored t2 _ => [t2]
     | IterResult.played t2 _ => [t2]
     | IterResult.cancelledMid t2 => [t2]
     | _ => []) = [t] := by
  unfold playerStep
  rw [h]
  cases hc : e.connected <;> cases hs : e.synth <;> cases hr : e.raiseUnhandled <;>
    simp [hr]

theorem playerRun_cons_live (e : IterEnv) (es : List IterEnv) (t : String)
    (ts : List String) (he : envLive e) :
    playerRun (e :: es) (t :: ts) = playerStep e t :: playerRun es ts := by
  obtain ⟨hc, hs, hn⟩ := he
  conv_lhs => rw [playerRun]
  rw [hc, hs]
  simp [playerStep_not_stopping e t hn]

theorem playerRun_attempts_all (envs : List IterEnv) (q : List String)
    (hlive : ∀ e ∈ envs, envLive e) (hlen : q.length ≤ envs.length) :
    attemptedTexts (playerRun envs q) = q := by
  induction envs generalizing q with
  | nil =>
    cases q with
    | nil => rfl
    | cons t ts => simp at hlen
  | cons e es ih =>
    cases q with
    | nil => rfl
    | cons t ts =>
      have he : envLive e := hlive e (by simp)
      rw [playerRun_cons_live e es t ts he]
      unfold attemptedTexts
      rw [playerStep_attempts e t he.2.2,
        ih ts (fun e2 h2 => hlive e2 (by simp [h2])) (by simpa using hlen)]
      simp

theorem playerRun_all_results (envs : List IterEnv) (q : List String)
    (hlive : ∀ e ∈ envs, envLive e) (hlen : q.length ≤ envs.length) :
    (playerRun envs q).length = q.length ∧
    ∀ r ∈ playerRun envs q, resultStops r = false := by
  induction envs generalizing q with
  | nil =>
    cases q with
    | nil => exact ⟨rfl, by intro r hr; simp [playerRun] at hr⟩
    | cons t ts => simp at hlen
  | cons e es ih =>
    cases q with
    | nil => exact ⟨rfl, by intro r hr; simp [playerRun] at hr⟩
    | cons t ts =>
      have he : envLive e := hlive e (by simp)
      rw [playerRun_cons_live e es t ts he]
      obtain ⟨ihl, ihr⟩ := ih ts (fun e2 h2 => hlive e2 (by simp [h2])) (by simpa using hlen)
      refine ⟨by simp [ihl], ?_⟩
      intro r hr
      rcases List.mem_cons.mp hr with h | h
      · rw [h]
        exact playerStep_not_stopping e t he.2.2
      · exact ihr r h

theorem playerStep_cooldown (e : IterEnv) (t t2 : String) (cd : Nat)
    (h : playerStep e t = IterResult.errored t2 cd) : cd = 5 := by
  unfold playerStep at h
  repeat' split at h
  all_goals simp_all

theorem playerRun_cooldown_five (envs : List IterEnv) (q : List String) :
    ∀ r ∈ playerRun envs q, ∀ t cd, r = IterResult.errored t cd → cd = 5 := by
  induction envs generalizing q with
  | nil =>
    intro r hr
    cases q <;> simp [playerRun] at hr
  | cons e es ih =>
    intro r hr t cd hcd
    cases q with
    | nil => simp [playerRun] at hr
    | cons x xs =>
      rw [playerRun] at hr
      by_cases hg : (e.closed || e.stopSet) = true
      · rw [if_pos hg] at hr
        subst hcd
        simp at hr
      · rw [if_neg hg] at hr
        by_cases hst : resultStops (playerStep e x) = true
        · rw [if_pos hst] at hr
          subst hcd
          simp at hr
          exact playerStep_cooldown e x t cd hr.symm
        · rw [if_neg hst] at hr
          rcases List.mem_cons.mp hr with h | h
          · exact playerStep_cooldown e x t cd (by rw [← hcd, h])
          · exact ih xs r h t cd hcd

/-- The synthesis-failure iteration: connected, synthesis returned no
audio; the item is dropped and the loop goes on with the next item. -/
theorem playerRun_synth_failure (e : IterEnv) (es : List IterEnv) (t : String)
    (ts : List String) (he : envLive e) (hc : e.connected = true)
    (hs : e.synth = none) :
    playerRun (e :: es) (t :: ts) = IterResult.synthFailed t :: playerRun es ts := by
  rw [playerRun_cons_live e es t ts he]
  unfold playerStep
  rw [he.2.2, hc, hs]
  simp

/-- The unhandled-exception iteration: the loop logs, sleeps 5, and
goes on with the next item. -/
theorem playerRun_unhandled (e : IterEnv) (es : List IterEnv) (t : String)
    (ts : List String) (a : List Nat) (he : envLive e) (hc : e.connected = true)
    (hs : e.synth = some a) (hr : e.raiseUnhandled = true) :
    playerRun (e :: es) (t :: ts) = IterResult.errored t 5 :: playerRun es ts := by
  rw [playerRun_cons_live e es t ts he]
  unfold playerStep
  rw [he.2.2, hc, hs, hr]
  simp

/-! ## Claim theorems: player loop -/

/-- C1: under any environments that do not close, stop or cancel the
loop, the three queued utterances are dequeued and handled in exactly
their enqueue order, whatever each iteration's synthesis outcome is;
and a synthesis failure for one dequeued item leaves the loop running
on the next queued item. -/
theorem c1_fifo_order (envs : List IterEnv) (a b c : String)
    (hlive : ∀ e ∈ envs, envLive e) (hlen : 3 ≤ envs.length) :
    attemptedTexts (playerRun envs [a, b, c]) = [a, b, c] ∧
    (∀ e es t ts, envLive e → e.connected = true → e.synth = none →
      playerRun (e :: es) (t :: ts) = IterResult.synthFailed t :: playerRun es ts) := by
  refine ⟨playerRun_attempts_all envs [a, b, c] hlive (by simpa using hlen), ?_⟩
  intro e es t ts he hc hs
  exact playerRun_synth_failure e es t ts he hc hs

/-- C5: under environments with no cancellation and a true loop guard,
an unhandled exception during an iteration yields a logged `errored`
result with a 5-unit cooldown and the loop returns to waiting — every
queued item is still handled, the trace never contains a terminating
result, and every cooldown is exactly 5. -/
theorem c5_transient_error_survival (envs : List IterEnv) (q : List String)
    (hlive : ∀ e ∈ envs, envLive e) (hlen : q.length ≤ envs.length) :
    (playerRun envs q).length = q.length ∧
    attemptedTexts (playerRun envs q) = q ∧
    (∀ r ∈ playerRun envs q, resultStops r = false) ∧
    (∀ r ∈ playerRun envs q, ∀ t cd, r = IterResult.errored t cd → cd = 5) ∧
    (∀ e es t ts a, envLive e → e.connected = true → e.synth = some a →
      e.raiseUnhandled = true →
      playerRun (e :: es) (t :: ts) = IterResult.errored t 5 :: playerRun es ts) := by
  obtain ⟨hl, hstop⟩ := playerRun_all_results envs q hlive hlen
  refine ⟨hl, playerRun_attempts_all envs q hlive hlen, hstop,
    playerRun_cooldown_five envs q, ?_⟩
  intro e es t ts a he hc hs hr
  exact playerRun_unhandled e es t ts a he hc hs hr

/-- C6: when an item is dequeued while the voice client is absent or
dead, the item is discarded with an outcome independent of the
synthesis oracle (no synthesis is attempted) and the loop goes on
waiting for the next item. -/
theorem c6_disconnected_skip (e : IterEnv) (es : List IterEnv) (t : String)
    (ts : List String) (he : envLive e) (hc : e.connected = false) :
    playerRun (e :: es) (t :: ts) = IterResult.skippedNoVC t :: playerRun es ts ∧
    ∀ s1 s2 : Option (List Nat),
      playerStep { e with synth := s1 } t = playerStep { e with synth := s2 } t := by
  constructor
  · rw [playerRun_cons_live e es t ts he]
    unfold playerStep
    rw [he.2.2, hc]
    simp
  · intro s1 s2
    unfold playerStep
    simp only [he.2.2, hc]
    simp

/-- Environment of a healthy iteration: connected, synthesis succeeds. -/
def envOk : IterEnv :=
  { closed := false, stopSet := false, connected := true, synth := some [0],
    raiseUnhandled := false, cancel := CancelPoint.noCancel }

/-- Environment of an iteration whose synthesis fails. -/
def envSynthFail : IterEnv :=
  { closed := false, stopSet := false, connected := true, synth := none,
    raiseUnhandled := false, cancel := CancelPoint.noCancel }

/-- Environment of an iteration with a dead voice connection. -/
def envDisconnected : IterEnv :=
  { closed := false, stopSet := false, connected := false, synth := some [0],
    raiseUnhandled := false, cancel := CancelPoint.noCancel }

/-- Environment of an iteration hitting an unhandled playback error. -/
def envBoom : IterEnv :=
  { closed := false, stopSet := false, connected := true, synth := some [0],
    raiseUnhandled := true, cancel := CancelPoint.noCancel }

/-- Witness for C1: the middle item's synthesis fails, yet the three
items are attempted in enqueue order. -/
theorem c1_fifo_order_witness :
    attemptedTexts (playerRun [envOk, envSynthFail, envOk] ["a", "b", "c"]) = ["a", "b", "c"] :=
  (c1_fifo_order [envOk, envSynthFail, envOk] "a" "b" "c" (by decide) (by decide)).1

/-- Witness for C5: an unhandled error on the first item still leaves
both items handled, with cooldown 5 and no terminating result. -/
theorem c5_transient_error_survival_witness :
    (playerRun [envBoom, envOk] ["a", "b"]).length = 2 ∧
    attemptedTexts (playerRun [envBoom, envOk] ["a", "b"]) = ["a", "b"] :=
  ⟨(c5_transient_error_survival [envBoom, envOk] ["a", "b"] (by decide) (by decide)).1,
   (c5_transient_error_survival [envBoom, envOk] ["a", "b"] (by decide) (by decide)).2.1⟩

/-- Witness for C6 at a concrete disconnected environment. -/
theorem c6_disconnected_skip_witness :
    playerRun [envDisconnected, envOk] ["a", "b"] =
      IterResult.skippedNoVC "a" :: playerRun [envOk] ["b"] :=
  (c6_disconnected_skip envDisconnected [envOk] "a" ["b"] (by decide) (by decide)).1

/-! ## Helper lemmas for the event handlers -/

theorem find?_map_update (l : List (Nat × GuildSession)) (g : Nat) (s : GuildSession)
    (h : (l.find? (fun p => p.1 == g)).isSome = true) :
    (l.map (fun p => if p.1 == g then (p.1, s) else p)).find? (fun p => p.1 == g) =
      some (g, s) := by
  induction l with
  | nil => simp at h
  | cons p ps ih =>
    by_cases hp : (p.1 == g) = true
    · have hg : p.1 = g := by simpa using hp
      subst hg
      simp [List.find?_cons_of_pos, hp]
    · have hps : (ps.find? (fun p => p.1 == g)).isSome = true := by
        rw [List.find?_cons_of_neg _ (by simpa using hp)] at h
        exact h
      simp only [List.map_cons, if_neg hp]
      rw [List.find?_cons_of_neg _ (by simpa using hp)]
      exact ih hps

theorem getSession_updateSession_self (st : BotState) (g : Nat) (s s0 : GuildSession)
    (h : getSession st g = some s0) :
    getSession (updateSession st g s) g = some s := by
  have hsome : (st.sessions.find? (fun p => p.1 == g)).isSome = true := by
    unfold getSession findSession at h
    cases hf : st.sessions.find? (fun p => p.1 == g) with
    | none => rw [hf] at h; simp at h
    | some v => simp
  simp only [getSession, updateSession, findSession]
  rw [find?_map_update st.sessions g s hsome]
  rfl

theorem on_message_muted (st : BotState) (m : MessageEvent) (g : Nat) (s : GuildSession)
    (hb : m.authorBot = false) (hg : m.guildId = some g)
    (hs : getSession st g = some s) (hm : s.isMuted = true) :
    on_message st m = (st, MsgAction.ignored) := by
  simp only [on_message, hb, hg, hs, hm]
  by_cases hch : s.textChannelId = some m.channelId <;> simp [hch]

/-! ## Claim theorems: skip, mute gating, announcements -/

/-- C3: the in-channel skip trigger with a non-empty queue or active
playback empties the queue, stops playback when playing, and reacts
with the skip mark; with an empty queue and no playback it mutates
nothing and reacts with the error mark (the "nothing to skip"
report). -/
theorem skipSession_queue (s : GuildSession) : (skipSession s).queue = [] := by
  unfold skipSession
  cases hvc : s.voiceClient with
  | none => rfl
  | some vc =>
    by_cases hp : vc.playing = true <;> simp [hp]

theorem skipSession_stops (s : GuildSession) (vc : VoiceClientState)
    (hvc : s.voiceClient = some vc) (hp : vc.playing = true) :
    (skipSession s).voiceClient = some { vc with playing := false } := by
  unfold skipSession
  rw [hvc]
  simp [hp]

theorem c3_skip_semantics (st : BotState) (m : MessageEvent) (g : Nat) (s : GuildSession)
    (hb : m.authorBot = false) (hg : m.guildId = some g)
    (hs : getSession st g = some s) (hch : s.textChannelId = some m.channelId)
    (hm : s.isMuted = false) (hc : pyLower m.content = "s") :
    ((s.queue ≠ [] ∨ (∃ vc, s.voiceClient = some vc ∧ vc.playing = true)) →
      (on_message st m).2 = MsgAction.reactSkip ∧
      (∃ s2, getSession (on_message st m).1 g = some s2 ∧ s2.queue = [] ∧
        (∀ vc, s.voiceClient = some vc → vc.playing = true →
          s2.voiceClient = some { vc with playing := false }))) ∧
    ((s.queue = [] ∧ (∀ vc, s.voiceClient = some vc → vc.playing = false)) →
      on_message st m = (st, MsgAction.reactError)) := by
  constructor
  · intro h1
    have hcanSkip : canSkipCheck s = true := by
      unfold canSkipCheck
      rcases h1 with hq | ⟨vc, hvc, hp⟩
      · cases hq2 : s.queue with
        | nil => exact absurd hq2 hq
        | cons a as => simp [hq2]
      · rw [hvc]
        simp [hp]
    simp only [on_message, hb, hg, hs, hch, hm, hc, hcanSkip]
    simp only [Bool.false_eq_true, if_false, ne_eq, not_true_eq_false, if_true, reduceIte]
    refine ⟨trivial, skipSession s, getSession_updateSession_self st g _ s hs,
      skipSession_queue s, ?_⟩
    intro vc hvc hp
    exact skipSession_stops s vc hvc hp
  · rintro ⟨hq, hnp⟩
    have hcanSkip : canSkipCheck s = false := by
      unfold canSkipCheck
      rw [hq]
      cases hvc : s.voiceClient with
      | none => simp
      | some vc =>
        have hnpl := hnp vc hvc
        simp [hnpl]
    simp only [on_message, hb, hg, hs, hch, hm, hc, hcanSkip]
    simp

/-- C10: while the session is muted, a message whose content is the
skip trigger `s` on the bound channel is ignored outright: the state is
unchanged (queue kept, playback untouched) and no reaction is sent. -/
theorem c10_muted_ignores_skip (st : BotState) (m : MessageEvent) (g : Nat)
    (s : GuildSession) (hb : m.authorBot = false) (hg : m.guildId = some g)
    (hs : getSession st g = some s) (hch : s.textChannelId = some m.channelId)
    (hm : s.isMuted = true) (hc : pyLower m.content = "s") :
    on_message st m = (st, MsgAction.ignored) :=
  on_message_muted st m g s hb hg hs hm

/-- C9: a voice-membership transition of a non-bot member enqueues the
join or leave announcement whatever the session's mute flag is (the
session `s` here is arbitrary, muted or not), while the mute flag does
gate the text-message path of `on_message`. -/
theorem c9_announce_ignores_mute (st : BotState) (ev : VoiceEvent) (s : GuildSession)
    (vc : VoiceClientState) (hb : ev.memberBot = false)
    (hs : getSession st ev.guildId = some s) (hvc : s.voiceClient = some vc) :
    ((ev.beforeChannel ≠ some vc.channelId ∧ ev.afterChannel = some vc.channelId) →
      ∃ s2, getSession (on_voice_state_update st ev) ev.guildId = some s2 ∧
        s2.queue = s.queue ++ [joinAnnouncement ev.displayName]) ∧
    ((ev.beforeChannel = some vc.channelId ∧ ev.afterChannel ≠ some vc.channelId) →
      ∃ s2, getSession (on_voice_state_update st ev) ev.guildId = some s2 ∧
        s2.queue = s.queue ++ [leaveAnnouncement ev.displayName]) ∧
    (∀ m : MessageEvent, m.authorBot = false → m.guildId = some ev.guildId →
      s.isMuted = true → on_message st m = (st, MsgAction.ignored)) := by
  refine ⟨?_, ?_, ?_⟩
  · intro h1
    simp only [on_voice_state_update, hb, hs, hvc, if_pos h1]
    simp only [Bool.false_eq_true, if_false]
    exact ⟨_, getSession_updateSession_self st ev.guildId _ s hs, rfl⟩
  · intro h2
    have hnot1 : ¬(ev.beforeChannel ≠ some vc.channelId ∧
        ev.afterChannel = some vc.channelId) := fun hcon => hcon.1 h2.1
    simp only [on_voice_state_update, hb, hs, hvc, if_neg hnot1, if_pos h2]
    simp only [Bool.false_eq_true, if_false]
    exact ⟨_, getSession_updateSession_self st ev.guildId _ s hs, rfl⟩
  · intro m hmb hmg hmut
    exact on_message_muted st m ev.guildId s hmb hmg hs hmut

/-- A concrete bot state holding one session for guild 1, bound to text
channel 9, muted, with one queued utterance and an actively playing
voice client in channel 5. -/
def demoSession : GuildSession :=
  { guildId := 1, voiceClient := some { connected := true, channelId := 5, playing := true },
    textChannelId := some 9, queue := ["hello"], isMuted := true,
    playerTaskId := some 0, stopEventSet := false }

/-- `demoSession`, unmuted. -/
def demoSessionUnmuted : GuildSession := { demoSession with isMuted := false }

def demoState : BotState :=
  { sessions := [(1, demoSession)], dicts := [],
    tasks := [{ id := 0, guildId := 1, cancelled := false }], nextTaskId := 1 }

def demoStateUnmuted : BotState :=
  { demoState with sessions := [(1, demoSessionUnmuted)] }

def demoSkipMsg : MessageEvent :=
  { authorBot := false, guildId := some 1, channelId := 9, content := "S",
    cleanContent := "S", hasAttachments := false }

/-- Witness for C3 at a concrete unmuted session with a non-empty
queue and active playback. -/
theorem c3_skip_semantics_witness :
    (on_message demoStateUnmuted demoSkipMsg).2 = MsgAction.reactSkip ∧
    ∃ s2, getSession (on_message demoStateUnmuted demoSkipMsg).1 1 = some s2 ∧
      s2.queue = [] := by
  have h := c3_skip_semantics demoStateUnmuted demoSkipMsg 1 demoSessionUnmuted
    rfl rfl rfl rfl rfl (by decide)
  obtain ⟨ha, s2, hb2, hc2, _⟩ := h.1 (Or.inl (by decide))
  exact ⟨ha, s2, hb2, hc2⟩

/-- Witness for C10 at the same state, muted: the skip trigger is
ignored. -/
theorem c10_muted_ignores_skip_witness :
    on_message demoState demoSkipMsg = (demoState, MsgAction.ignored) :=
  c10_muted_ignores_skip demoState demoSkipMsg 1 demoSession rfl rfl rfl rfl rfl (by decide)

def demoJoinEvent : VoiceEvent :=
  { memberBot := false, guildId := 1, displayName := "alice",
    beforeChannel := none, afterChannel := some 5 }

/-- Witness for C9: the muted session still gets the join announcement
enqueued. -/
theorem c9_announce_ignores_mute_witness :
    ∃ s2, getSession (on_voice_state_update demoState demoJoinEvent) 1 = some s2 ∧
      s2.queue = ["hello", joinAnnouncement "alice"] := by
  have h := c9_announce_ignores_mute demoState demoJoinEvent demoSession
    { connected := true, channelId := 5, playing := true } rfl rfl rfl
  obtain ⟨s2, h1, h2⟩ := h.1 (by decide)
  exact ⟨s2, h1, by rw [h2]; rfl⟩

/-! ## Helper lemmas for the registry invariant -/

theorem findSession_cons_self (l : List (Nat × GuildSession)) (g : Nat)
    (s : GuildSession) : findSession ((g, s) :: l) g = some s := by
  unfold findSession
  rw [List.find?_cons_of_pos _ (by simp)]
  rfl

theorem findSession_cons_ne (l : List (Nat × GuildSession)) (g g2 : Nat)
    (s : GuildSession) (hne : g2 ≠ g) :
    findSession ((g, s) :: l) g2 = findSession l g2 := by
  unfold findSession
  rw [List.find?_cons_of_neg _ (by simp; exact fun h => hne h.symm)]

theorem findSession_filter_self (l : List (Nat × GuildSession)) (g : Nat) :
    findSession (l.filter (fun p => !(p.1 == g))) g = none := by
  unfold findSession
  have hnone : (l.filter (fun p => !(p.1 == g))).find? (fun p => p.1 == g) = none := by
    rw [List.find?_eq_none]
    intro x hx
    have hmem := List.of_mem_filter hx
    simp at hmem ⊢
    exact hmem
  rw [hnone]
  rfl

theorem findSession_filter_ne (l : List (Nat × GuildSession)) (g g2 : Nat)
    (hne : g2 ≠ g) :
    findSession (l.filter (fun p => !(p.1 == g))) g2 = findSession l g2 := by
  induction l with
  | nil => rfl
  | cons p ps ih =>
    by_cases hp : (p.1 == g) = true
    · have hpg : p.1 = g := by simpa using hp
      rw [List.filter_cons_of_neg (by simp [hp])]
      rw [ih]
      unfold findSession
      rw [List.find?_cons_of_neg _ (by simp [hpg]; exact fun h => hne h.symm)]
    · rw [List.filter_cons_of_pos (by simp [hp])]
      unfold findSession
      by_cases hp2 : (p.1 == g2) = true
      · have hfind : ∀ L : List (Nat × GuildSession),
            (p :: L).find? (fun q => q.1 == g2) = some p :=
          fun L => List.find?_cons_of_pos L hp2
        rw [hfind, hfind]
      · have hfind : ∀ L : List (Nat × GuildSession),
            (p :: L).find? (fun q => q.1 == g2) = L.find? (fun q => q.1 == g2) :=
          fun L => List.find?_cons_of_neg L (by simpa using hp2)
        rw [hfind, hfind]
        exact ih

theorem cancelTask_map_id (ts : List PlayerTask) (tid : Nat) :
    (cancelTask ts tid).map (fun t => t.id) = ts.map (fun t => t.id) := by
  unfold cancelTask
  induction ts with
  | nil => rfl
  | cons t ts ih =>
    simp only [List.map_cons, ih]
    by_cases h : (t.id == tid) = true <;> simp [h]

theorem mem_cancelTask (ts : List PlayerTask) (tid : Nat) (t : PlayerTask)
    (ht : t ∈ cancelTask ts tid) :
    ∃ t0 ∈ ts, t = if (t0.id == tid) = true then { t0 with cancelled := true } else t0 := by
  unfold cancelTask at ht
  obtain ⟨t0, ht0, heq⟩ := List.mem_map.mp ht
  exact ⟨t0, ht0, heq.symm⟩

theorem cancelTask_fresh (ts : List PlayerTask) (tid bound : Nat)
    (h : ∀ t ∈ ts, t.id < bound) : ∀ t ∈ cancelTask ts tid, t.id < bound := by
  intro t ht
  obtain ⟨t0, ht0, heq⟩ := mem_cancelTask ts tid t ht
  by_cases hc : (t0.id == tid) = true
  · rw [if_pos hc] at heq
    rw [heq]
    exact h t0 ht0
  · rw [if_neg hc] at heq
    rw [heq]
    exact h t0 ht0

theorem liveFilter_cancelTask (ts : List PlayerTask) (tid g : Nat) :
    liveFilter (cancelTask ts tid) g =
      ts.filter (fun t => ((t.guildId == g) && !t.cancelled) && !(t.id == tid)) := by
  unfold liveFilter cancelTask
  induction ts with
  | nil => rfl
  | cons t ts ih =>
    rw [List.map_cons]
    by_cases hid : (t.id == tid) = true
    · have hFt : (if (t.id == tid) = true then ({ t with cancelled := true } : PlayerTask)
          else t) = { t with cancelled := true } := if_pos hid
      rw [hFt, List.filter_cons, List.filter_cons]
      have hP : (({ t with cancelled := true } : PlayerTask).guildId == g &&
          !({ t with cancelled := true } : PlayerTask).cancelled) = false := by simp
      have hQ : (((t.guildId == g) && !t.cancelled) && !(t.id == tid)) = false := by
        rw [hid]
        simp
      rw [hP, hQ]
      simp only [Bool.false_eq_true, if_false]
      exact ih
    · have hid2 : (t.id == tid) = false := by simpa using hid
      have hFt : (if (t.id == tid) = true then ({ t with cancelled := true } : PlayerTask)
          else t) = t := by
        rw [hid2]
        simp
      rw [hFt, List.filter_cons, List.filter_cons]
      have hQ : (((t.guildId == g) && !t.cancelled) && !(t.id == tid)) =
          ((t.guildId == g) && !t.cancelled) := by
        rw [hid2]
        simp
      rw [hQ]
      by_cases hP : ((t.guildId == g) && !t.cancelled) = true
      · rw [if_pos hP, if_pos hP, ih]
      · have hP2 : ((t.guildId == g) && !t.cancelled) = false := by simpa using hP
        rw [hP2]
        simp only [Bool.false_eq_true, if_false]
        exact ih

theorem filter_and_nil (p q : PlayerTask → Bool) (l : List PlayerTask)
    (h : l.filter p = []) : l.filter (fun a => p a && q a) = [] := by
  rw [List.filter_eq_nil_iff] at h ⊢
  intro a ha
  have hpa := h a ha
  simp only [Bool.not_eq_true] at hpa
  simp [hpa]

theorem mem_filter_and (p q : PlayerTask → Bool) (l : List PlayerTask)
    (t : PlayerTask) (h : t ∈ l.filter (fun a => p a && q a)) : t ∈ l.filter p := by
  rw [List.mem_filter] at h ⊢
  refine ⟨h.1, ?_⟩
  have h2 := h.2
  simp only [Bool.and_eq_true] at h2
  exact h2.1

theorem nodupId_const_length (l : List PlayerTask) (tid : Nat)
    (hn : (l.map (fun t => t.id)).Nodup) (hc : ∀ t ∈ l, t.id = tid) :
    l.length ≤ 1 := by
  match l with
  | [] => simp
  | [t] => simp
  | t1 :: t2 :: rest =>
    exfalso
    simp only [List.map_cons, List.nodup_cons] at hn
    apply hn.1
    have h1 := hc t1 (by simp)
    have h2 := hc t2 (by simp)
    rw [h1, ← h2]
    simp

/-- From the invariant: at most one live player task per guild. -/
theorem inv_live_le_one (st : BotState) (hInv : Inv st) (g : Nat) :
    (liveTasksFor st g).length ≤ 1 := by
  obtain ⟨hKeys, hIds, hFresh, hAlign, hNone, hSessFresh⟩ := hInv
  cases hs : getSession st g with
  | none =>
    rw [hNone g hs]
    simp
  | some s =>
    cases hpt : s.playerTaskId with
    | none =>
      have hl : liveTasksFor st g = [] := by
        rw [List.eq_nil_iff_forall_not_mem]
        intro t ht
        have halign := hAlign g s hs t ht
        rw [hpt] at halign
        exact absurd halign (by simp)
      rw [hl]
      simp
    | some tid =>
      apply nodupId_const_length _ tid
      · exact List.Nodup.sublist (List.Sublist.map _ (List.filter_sublist _)) hIds
      · intro t ht
        have halign := hAlign g s hs t ht
        rw [hpt] at halign
        exact Option.some.inj halign

/-- Effect of `join`'s stop-and-delete phase: the invariant is kept,
the guild has no session and no live task afterwards, the task-id
table and counter are unchanged, other guilds are untouched, and the
old session's player task is cancelled. -/
theorem stopRemove_facts (st : BotState) (g : Nat) (hInv : Inv st) :
    Inv (stopRemove st g) ∧
    getSession (stopRemove st g) g = none ∧
    (stopRemove st g).nextTaskId = st.nextTaskId ∧
    (stopRemove st g).tasks.map (fun t => t.id) = st.tasks.map (fun t => t.id) ∧
    (∀ g2, g2 ≠ g → getSession (stopRemove st g) g2 = getSession st g2) ∧
    (∀ old, getSession st g = some old → ∀ tid, old.playerTaskId = some tid →
      ∀ t ∈ (stopRemove st g).tasks, t.id = tid → t.cancelled = true) := by
  obtain ⟨hKeys, hIds, hFresh, hAlign, hNone, hSessFresh⟩ := hInv
  have hkeys2 : ((st.sessions.filter (fun p => !(p.1 == g))).map (fun p => p.1)).Nodup :=
    List.Nodup.sublist (List.Sublist.map _ (List.filter_sublist _)) hKeys
  cases hold : getSession st g with
  | none =>
    have hstate : stopRemove st g = st := by
      unfold stopRemove
      rw [hold]
    rw [hstate]
    refine ⟨⟨hKeys, hIds, hFresh, hAlign, hNone, hSessFresh⟩, hold, rfl, rfl,
      fun _ _ => rfl, ?_⟩
    intro old h
    exact absurd h (by simp)
  | some old =>
    have hlive_old : ∀ t ∈ liveTasksFor st g, some t.id = old.playerTaskId :=
      hAlign g old hold
    cases hpt : old.playerTaskId with
    | none =>
      have hstate : stopRemove st g =
          { sessions := st.sessions.filter (fun p => !(p.1 == g)), dicts := st.dicts,
            tasks := st.tasks, nextTaskId := st.nextTaskId } := by
        unfold stopRemove sessionStop removeSession
        rw [hold]
        dsimp only
        rw [hpt]
      have hliveg : liveTasksFor st g = [] := by
        rw [List.eq_nil_iff_forall_not_mem]
        intro t ht
        have h2 := hlive_old t ht
        rw [hpt] at h2
        exact absurd h2 (by simp)
      rw [hstate]
      refine ⟨⟨hkeys2, hIds, hFresh, ?_, ?_, ?_⟩, ?_, rfl, rfl, ?_, ?_⟩
      · intro g2 s2 h2 t ht
        by_cases hg2 : g2 = g
        · subst hg2
          simp only [getSession] at h2
          rw [findSession_filter_self] at h2
          exact absurd h2 (by simp)
        · simp only [getSession] at h2
          rw [findSession_filter_ne _ _ _ hg2] at h2
          exact hAlign g2 s2 h2 t ht
      · intro g2 h2
        by_cases hg2 : g2 = g
        · subst hg2
          exact hliveg
        · simp only [getSession] at h2
          rw [findSession_filter_ne _ _ _ hg2] at h2
          exact hNone g2 h2
      · intro g2 s2 h2 tid2 hpt2
        by_cases hg2 : g2 = g
        · subst hg2
          simp only [getSession] at h2
          rw [findSession_filter_self] at h2
          exact absurd h2 (by simp)
        · simp only [getSession] at h2
          rw [findSession_filter_ne _ _ _ hg2] at h2
          exact hSessFresh g2 s2 h2 tid2 hpt2
      · simp only [getSession]
        exact findSession_filter_self _ _
      · intro g2 hg2
        simp only [getSession]
        exact findSession_filter_ne _ _ _ hg2
      · intro old2 hold2 tid2 hpt2 t ht htid
        have hoo : old2 = old := (Option.some.inj hold2).symm
        rw [hoo, hpt] at hpt2
        exact absurd hpt2 (by simp)
    | some tid =>
      have hstate : stopRemove st g =
          { sessions := st.sessions.filter (fun p => !(p.1 == g)), dicts := st.dicts,
            tasks := cancelTask st.tasks tid, nextTaskId := st.nextTaskId } := by
        unfold stopRemove sessionStop removeSession
        rw [hold]
        dsimp only
        rw [hpt]
      rw [hstate]
      refine ⟨⟨hkeys2, ?_, ?_, ?_, ?_, ?_⟩, ?_, rfl, cancelTask_map_id _ _, ?_, ?_⟩
      · rw [cancelTask_map_id]
        exact hIds
      · exact cancelTask_fresh _ _ _ hFresh
      · intro g2 s2 h2 t ht
        by_cases hg2 : g2 = g
        · subst hg2
          simp only [getSession] at h2
          rw [findSession_filter_self] at h2
          exact absurd h2 (by simp)
        · simp only [getSession] at h2
          rw [findSession_filter_ne _ _ _ hg2] at h2
          have ht2 : t ∈ liveFilter (cancelTask st.tasks tid) g2 := ht
          rw [liveFilter_cancelTask] at ht2
          exact hAlign g2 s2 h2 t (mem_filter_and _ _ _ _ ht2)
      · intro g2 h2
        by_cases hg2 : g2 = g
        · subst hg2
          show liveFilter (cancelTask st.tasks tid) g2 = []
          rw [liveFilter_cancelTask, List.filter_eq_nil_iff]
          intro t htm hpred
          have hcomp := hpred
          simp only [Bool.and_eq_true] at hcomp
          obtain ⟨hp, hq⟩ := hcomp
          have htl : t ∈ liveTasksFor st g2 :=
            List.mem_filter.mpr ⟨htm, by simp only [Bool.and_eq_true]; exact hp⟩
          have hid := hlive_old t htl
          rw [hpt] at hid
          have hid2 : t.id = tid := Option.some.inj hid
          rw [hid2] at hq
          simp at hq
        · simp only [getSession] at h2
          rw [findSession_filter_ne _ _ _ hg2] at h2
          show liveFilter (cancelTask st.tasks tid) g2 = []
          rw [liveFilter_cancelTask]
          exact filter_and_nil _ _ _ (hNone g2 h2)
      · intro g2 s2 h2 tid2 hpt2
        by_cases hg2 : g2 = g
        · subst hg2
          simp only [getSession] at h2
          rw [findSession_filter_self] at h2
          exact absurd h2 (by simp)
        · simp only [getSession] at h2
          rw [findSession_filter_ne _ _ _ hg2] at h2
          exact hSessFresh g2 s2 h2 tid2 hpt2
      · simp only [getSession]
        exact findSession_filter_self _ _
      · intro g2 hg2
        simp only [getSession]
        exact findSession_filter_ne _ _ _ hg2
      · intro old2 hold2 tid2 hpt2 t ht htid
        have hoo : old2 = old := (Option.some.inj hold2).symm
        rw [hoo, hpt] at hpt2
        have htt : tid2 = tid := (Option.some.inj hpt2).symm
        obtain ⟨t0, ht0, heq⟩ := mem_cancelTask st.tasks tid t ht
        by_cases hc : (t0.id == tid) = true
        · rw [if_pos hc] at heq
          rw [heq]
        · rw [if_neg hc] at heq
          exfalso
          apply hc
          rw [← heq, htid, htt]
          simp

/-- The player task created by `GuildSession.start` during a join. -/
def newPlayerTask (st1 : BotState) (g : Nat) : PlayerTask :=
  { id := st1.nextTaskId, guildId := g, cancelled := false }

/-- The session object as installed by `join`: fresh session after
`start` bound it to the voice client, text channel and new task. -/
def newSessionObj (st1 : BotState) (g : Nat) (vc : VoiceClientState)
    (chan : Nat) : GuildSession :=
  { guildId := g, voiceClient := some vc, textChannelId := some chan, queue := [],
    isMuted := false, playerTaskId := some st1.nextTaskId, stopEventSet := false }

/-- Effect of `join`'s install phase on a state where the guild has no
session and no live task: the invariant is kept, the guild's session is
the fresh one (empty queue, unmuted) and its sole live task is the new
player task. -/
theorem installFresh_facts (st1 : BotState) (g : Nat) (vc : VoiceClientState)
    (chan : Nat) (hInv : Inv st1) (hnone : getSession st1 g = none) :
    Inv (installFresh st1 g vc chan) ∧
    getSession (installFresh st1 g vc chan) g = some (newSessionObj st1 g vc chan) ∧
    liveTasksFor (installFresh st1 g vc chan) g = [newPlayerTask st1 g] ∧
    (∀ t ∈ (installFresh st1 g vc chan).tasks,
      t ∈ st1.tasks ∨ t = newPlayerTask st1 g) := by
  obtain ⟨hKeys, hIds, hFresh, hAlign, hNone, hSessFresh⟩ := hInv
  have hliveg : liveTasksFor st1 g = [] := hNone g hnone
  have hstate : installFresh st1 g vc chan =
      { sessions := (g, newSessionObj st1 g vc chan) ::
          st1.sessions.filter (fun p => !(p.1 == g)),
        dicts := st1.dicts,
        tasks := st1.tasks ++ [newPlayerTask st1 g],
        nextTaskId := st1.nextTaskId + 1 } := by
    unfold installFresh sessionStart freshSession newSessionObj newPlayerTask
    rfl
  have hlivefinal : liveFilter (st1.tasks ++ [newPlayerTask st1 g]) g =
      [newPlayerTask st1 g] := by
    unfold liveFilter
    rw [List.filter_append]
    have h1 : st1.tasks.filter (fun t => (t.guildId == g) && !t.cancelled) = [] := hliveg
    rw [h1]
    simp [newPlayerTask]
  have hbeqr : ∀ g2 : Nat, g2 ≠ g → (g == g2) = false := by
    intro g2 hg2
    simp only [beq_eq_false_iff_ne, ne_eq]
    exact fun h => hg2 h.symm
  have hliveother : ∀ g2 : Nat, g2 ≠ g →
      liveFilter (st1.tasks ++ [newPlayerTask st1 g]) g2 = liveFilter st1.tasks g2 := by
    intro g2 hg2
    unfold liveFilter
    rw [List.filter_append]
    have h2 : [newPlayerTask st1 g].filter
        (fun t => (t.guildId == g2) && !t.cancelled) = [] := by
      simp [newPlayerTask, hbeqr g2 hg2]
    rw [h2, List.append_nil]
  rw [hstate]
  refine ⟨⟨?_, ?_, ?_, ?_, ?_, ?_⟩, ?_, hlivefinal, ?_⟩
  · -- registry keys stay distinct
    rw [List.map_cons]
    refine List.nodup_cons.mpr ⟨?_, ?_⟩
    · intro hmem
      obtain ⟨p, hpmem, hp1⟩ := List.mem_map.mp hmem
      have hfail := List.of_mem_filter hpmem
      rw [hp1] at hfail
      simp at hfail
    · exact List.Nodup.sublist (List.Sublist.map _ (List.filter_sublist _)) hKeys
  · -- task ids stay distinct
    rw [List.map_append]
    rw [List.nodup_append]
    refine ⟨hIds, by simp, ?_⟩
    intro a ha hb
    simp only [newPlayerTask, List.map_cons, List.map_nil, List.mem_singleton] at hb
    obtain ⟨t, htm, hta⟩ := List.mem_map.mp ha
    have := hFresh t htm
    omega
  · -- freshness of ids
    intro t ht
    rcases List.mem_append.mp ht with h | h
    · exact Nat.lt_succ_of_lt (hFresh t h)
    · have h2 : t = newPlayerTask st1 g := List.mem_singleton.mp h
      rw [h2]
      exact Nat.lt_succ_self _
  · -- live tasks point to their session's player
    intro g2 s2 h2 t ht
    by_cases hg2 : g2 = g
    · rw [hg2] at h2 ht
      simp only [getSession] at h2
      rw [findSession_cons_self] at h2
      have hs2 : s2 = newSessionObj st1 g vc chan := (Option.some.inj h2).symm
      have ht2 : t ∈ [newPlayerTask st1 g] := hlivefinal ▸ ht
      have ht3 : t = newPlayerTask st1 g := List.mem_singleton.mp ht2
      rw [hs2, ht3]
      rfl
    · simp only [getSession] at h2
      rw [findSession_cons_ne _ _ _ _ hg2, findSession_filter_ne _ _ _ hg2] at h2
      have ht2 : t ∈ liveFilter st1.tasks g2 := hliveother g2 hg2 ▸ ht
      exact hAlign g2 s2 h2 t ht2
  · -- guilds without a session have no live task
    intro g2 h2
    by_cases hg2 : g2 = g
    · rw [hg2] at h2
      simp only [getSession] at h2
      rw [findSession_cons_self] at h2
      exact absurd h2 (by simp)
    · simp only [getSession] at h2
      rw [findSession_cons_ne _ _ _ _ hg2, findSession_filter_ne _ _ _ hg2] at h2
      show liveFilter (st1.tasks ++ [newPlayerTask st1 g]) g2 = []
      rw [hliveother g2 hg2]
      exact hNone g2 h2
  · -- session player ids stay below the counter
    intro g2 s2 h2 tid hpt
    by_cases hg2 : g2 = g
    · rw [hg2] at h2
      simp only [getSession] at h2
      rw [findSession_cons_self] at h2
      have hs2 : s2 = newSessionObj st1 g vc chan := (Option.some.inj h2).symm
      rw [hs2] at hpt
      have htid : tid = st1.nextTaskId := (Option.some.inj hpt).symm
      show tid < st1.nextTaskId + 1
      omega
    · simp only [getSession] at h2
      rw [findSession_cons_ne _ _ _ _ hg2, findSession_filter_ne _ _ _ hg2] at h2
      exact Nat.lt_succ_of_lt (hSessFresh g2 s2 h2 tid hpt)
  · simp only [getSession]
    exact findSession_cons_self _ _ _
  · intro t ht
    rcases List.mem_append.mp ht with h | h
    · exact Or.inl h
    · exact Or.inr (List.mem_singleton.mp h)

theorem inv_join (st : BotState) (hInv : Inv st) (g : Nat) (uvc : Option Nat)
    (chan : Nat) (cOk : Bool) : Inv (join st g uvc chan cOk).1 := by
  unfold join
  cases uvc with
  | none => exact hInv
  | some v =>
    cases cOk with
    | false =>
      simp only [Bool.not_false, if_true]
      exact (stopRemove_facts st g hInv).1
    | true =>
      simp only [Bool.not_true, Bool.false_eq_true, if_false]
      obtain ⟨h1, h2, _⟩ := stopRemove_facts st g hInv
      exact (installFresh_facts (stopRemove st g) g _ chan h1 h2).1

theorem inv_join_seq (ops : List (Nat × Option Nat × Nat × Bool)) (st : BotState)
    (hInv : Inv st) :
    Inv (ops.foldl (fun acc op => (join acc op.1 op.2.1 op.2.2.1 op.2.2.2).1) st) := by
  induction ops generalizing st with
  | nil => exact hInv
  | cons op ops ih => exact ih _ (inv_join st hInv op.1 op.2.1 op.2.2.1 op.2.2.2)

/-- C2: `join` fully stops an existing session (its player task is
cancelled) before installing the new one; the installed session has an
empty queue and is unmuted; the invariant — distinct registry keys and
at most one live player task per guild — is preserved by any single
join and any sequence of joins, and yields the at-most-one bounds. -/
theorem c2_join_replaces (st : BotState) (g : Nat) (uvc : Option Nat) (chan : Nat)
    (cOk : Bool) (hInv : Inv st) :
    Inv (join st g uvc chan cOk).1 ∧
    (∀ ops : List (Nat × Option Nat × Nat × Bool),
      Inv (ops.foldl (fun acc op => (join acc op.1 op.2.1 op.2.2.1 op.2.2.2).1) st)) ∧
    (∀ g2, (((join st g uvc chan cOk).1.sessions.map (fun p => p.1)).count g2 ≤ 1) ∧
      (liveTasksFor (join st g uvc chan cOk).1 g2).length ≤ 1) ∧
    (∀ v, uvc = some v → cOk = true →
      getSession (join st g uvc chan cOk).1 g =
        some (newSessionObj (stopRemove st g) g ⟨true, v, false⟩ chan) ∧
      (newSessionObj (stopRemove st g) g ⟨true, v, false⟩ chan).queue = [] ∧
      (newSessionObj (stopRemove st g) g ⟨true, v, false⟩ chan).isMuted = false ∧
      liveTasksFor (join st g uvc chan cOk).1 g = [newPlayerTask (stopRemove st g) g] ∧
      (∀ old, getSession st g = some old → ∀ tid, old.playerTaskId = some tid →
        ∀ t ∈ (join st g uvc chan cOk).1.tasks, t.id = tid → t.cancelled = true)) := by
  have hInvJ := inv_join st hInv g uvc chan cOk
  refine ⟨hInvJ, fun ops => inv_join_seq ops st hInv, ?_, ?_⟩
  · intro g2
    exact ⟨List.nodup_iff_count_le_one.mp hInvJ.1 g2, inv_live_le_one _ hInvJ g2⟩
  · intro v huvc hcok
    subst huvc
    subst hcok
    obtain ⟨hI1, hN1, hNext1, hIds1, hOther1, hCanc1⟩ := stopRemove_facts st g hInv
    obtain ⟨hI2, hGet2, hLive2, hMem2⟩ :=
      installFresh_facts (stopRemove st g) g ⟨true, v, false⟩ chan hI1 hN1
    have hred : (join st g (some v) chan true).1 =
        installFresh (stopRemove st g) g ⟨true, v, false⟩ chan := rfl
    rw [hred]
    refine ⟨hGet2, rfl, rfl, hLive2, ?_⟩
    intro old hold tid hpt t ht htid
    rcases hMem2 t ht with h | h
    · exact hCanc1 old hold tid hpt t h htid
    · exfalso
      obtain ⟨_, _, _, _, _, hSF⟩ := hInv
      have htidlt : tid < st.nextTaskId := hSF g old hold tid hpt
      rw [h] at htid
      simp only [newPlayerTask] at htid
      rw [hNext1] at htid
      omega

/-- Witness for C2: two successive joins for guild 1 from the empty
state leave exactly one session (empty queue, unmuted) and at most one
live player task for that guild. -/
theorem c2_join_replaces_witness :
    Inv startState ∧
    getSession (join (join startState 1 (some 5) 9 true).1 1 (some 5) 9 true).1 1 =
      some (newSessionObj (stopRemove (join startState 1 (some 5) 9 true).1 1) 1
        ⟨true, 5, false⟩ 9) ∧
    (newSessionObj (stopRemove (join startState 1 (some 5) 9 true).1 1) 1
      ⟨true, 5, false⟩ 9).queue = [] ∧
    (newSessionObj (stopRemove (join startState 1 (some 5) 9 true).1 1) 1
      ⟨true, 5, false⟩ 9).isMuted = false ∧
    (liveTasksFor (join (join startState 1 (some 5) 9 true).1 1 (some 5) 9 true).1 1).length
      ≤ 1 ∧
    ((join (join startState 1 (some 5) 9 true).1 1 (some 5) 9 true).1.sessions.map
      (fun p => p.1)).count 1 ≤ 1 := by
  have h0 : Inv startState := by
    refine ⟨?_, ?_, ?_, ?_, ?_, ?_⟩
    · simp [startState]
    · simp [startState]
    · intro t ht
      simp [startState] at ht
    · intro g s hgs
      simp [startState, getSession, findSession] at hgs
    · intro g hg
      simp [startState, liveTasksFor, liveFilter]
    · intro g s hgs
      simp [startState, getSession, findSession] at hgs
  have h1 := c2_join_replaces startState 1 (some 5) 9 true h0
  have h2 := c2_join_replaces (join startState 1 (some 5) 9 true).1 1 (some 5) 9 true h1.1
  obtain ⟨hget, hq, hm, hlive, hcanc⟩ := h2.2.2.2 5 rfl rfl
  exact ⟨h0, hget, hq, hm, (h2.2.2.1 1).2, (h2.2.2.1 1).1⟩

end HikakinTTS
